import Mathlib

/-!
Shallow embedding of the Kinetic_BR2 hand-gesture application
(src/types.ts: the `Point`/`Bubble` data model and the `predict`
frame-loop callback of the React component).

JS numbers are modelled as rationals (ℚ); all comparisons in the
program are order comparisons and arithmetic that ℚ models exactly.
Fallible JS code (unchecked indexed access that throws a TypeError on
`undefined`) is modelled with `Option`: `none` means the callback threw.
External randomness (`Math.random()` draws) is passed in as explicit
inputs: the id string produced by
`Math.random().toString(36).substr(2, 9)` is abstracted as an oracle
string (any two draws may coincide, as the underlying generator can
repeat values and distinct values can share a 9-character prefix), and
the raw draws used for `driftX`/`rotation` as rationals in [0, 1).
The constants imported from './constants' (SARCASTIC_QUOTES,
SPAWN_COOLDOWN, BUBBLE_LIFETIME) and the canvas dimensions are
parameters of the model (`Config`).
-/

namespace Kinetic

/-- 2D point, src/types.ts `interface Point`. -/
structure Point where
  x : ℚ
  y : ℚ
deriving DecidableEq, Repr

/-- Floating message entity, src/types.ts `interface Bubble`. -/
structure Bubble where
  id : String
  text : String
  x : ℚ
  y : ℚ
  driftX : ℚ
  rotation : ℚ
deriving DecidableEq, Repr

/-- Skeleton edge topology, src/types.ts `HAND_CONNECTIONS` (lines 28-35). -/
def HAND_CONNECTIONS : List (ℕ × ℕ) :=
  [(0, 1), (1, 2), (2, 3), (3, 4),
   (0, 5), (5, 6), (6, 7), (7, 8),
   (0, 9), (9, 10), (10, 11), (11, 12),
   (0, 13), (13, 14), (14, 15), (15, 16),
   (0, 17), (17, 18), (18, 19), (19, 20),
   (5, 9), (9, 13), (13, 17)]

/-- The gesture classifier, src/types.ts lines 114-124.  The JS code reads
`landmarks[4].y`, `landmarks[3].y`, `landmarks[2].y`, `landmarks[8].y`,
`landmarks[6].y`, `landmarks[12].y`, `landmarks[10].y`, `landmarks[16].y`,
`landmarks[14].y`, `landmarks[20].y`, `landmarks[18].y` with no length
check: if any of those indices is missing, the `.y` property access on
`undefined` throws a TypeError (modelled as `none`); otherwise the result
is the conjunction of the six strict comparisons of lines 118-124. -/
def classifyHand (l : List Point) : Option Bool :=
  l[4]?.bind fun p4 => l[3]?.bind fun p3 => l[2]?.bind fun p2 =>
  l[8]?.bind fun p8 => l[6]?.bind fun p6 =>
  l[12]?.bind fun p12 => l[10]?.bind fun p10 =>
  l[16]?.bind fun p16 => l[14]?.bind fun p14 =>
  l[20]?.bind fun p20 => l[18]?.bind fun p18 =>
  some (decide (p4.y < p3.y) && decide (p3.y < p2.y) &&
        decide (p8.y > p6.y) && decide (p12.y > p10.y) &&
        decide (p16.y > p14.y) && decide (p20.y > p18.y))

/-- The y coordinate of landmark `i` (0 if out of range); used only to
state properties of `classifyHand` at in-range indices. -/
def yAt (l : List Point) (i : ℕ) : ℚ :=
  ((l[i]?).getD ⟨0, 0⟩).y

/-- Display-space scaling, src/types.ts lines 108-111: selfie mirroring
of x and scaling of both axes to the canvas size. -/
def scaleToDisplay (w hgt : ℚ) (p : Point) : Point :=
  ⟨(1 - p.x) * w, p.y * hgt⟩

/-- The constants the component imports from './constants' plus the
canvas dimensions: parameters of the model. -/
structure Config where
  quotes : List String
  spawnCooldown : ℚ
  bubbleLifetime : ℚ
  canvasW : ℚ
  canvasH : ℚ
deriving DecidableEq, Repr

/-- The `Math.random()` draws consumed by one spawn (lines 158, 162, 163):
the produced id string, and the raw draws (in [0, 1)) used for
`driftX` and `rotation`. -/
structure Rand where
  idStr : String
  driftR : ℚ
  rotR : ℚ
deriving DecidableEq, Repr

/-- Mutable component state touched by `predict`: the live bubbles
(`bubbles` React state, appended line 166, filtered line 171), the
per-hand cooldown slots (`lastSpawnTimeRef`, initially [0, 0]), the
round-robin quote index (`quoteIndexRef`), the reported active-hands
count (`activeHandsCount` React state), and the pending expiry timers
scheduled by `setTimeout` (line 170-172), recorded as (due time, id). -/
structure AppState where
  bubbles : List Bubble
  lastSpawnTime : List ℚ
  quoteIndex : ℕ
  activeHandsCount : ℕ
  timers : List (ℚ × String)
deriving DecidableEq, Repr

/-- The cooldown slot read `lastSpawnTimeRef.current[handIndex]`
(line 155). -/
def slotLastFired (st : AppState) (handIndex : ℕ) : ℚ :=
  st.lastSpawnTime.getD handIndex 0

/-- The time test of the cooldown gate (line 155):
`now - lastSpawnTimeRef.current[handIndex] > SPAWN_COOLDOWN`. -/
def gateOpen (cooldown now lastFired : ℚ) : Bool :=
  decide (now - lastFired > cooldown)

/-- Per-hand canvas drawing output (lines 129-152): the emphasis
parameters set on the context plus the stroked segments and filled
node circles (center, radius, fill style). -/
structure RenderOut where
  shadowBlur : ℚ
  shadowColor : String
  strokeStyle : String
  lineWidth : ℚ
  segments : List (Point × Point)
  nodes : List (Point × ℚ × String)
deriving DecidableEq, Repr

/-- The skeleton/node drawing of one hand, lines 129-152.  All emphasis
values branch on `thumbsUpActive` exactly as the source does; node `i = 4`
is the thumb tip.  (Indexed segment accesses are in range whenever the
hand reached this point, since classification already required 21
landmarks; `getD` supplies a dummy otherwise.) -/
def drawHand (active : Bool) (scaled : List Point) : RenderOut :=
  { shadowBlur := if active then 40 else 10
    shadowColor := if active then "#ffffff" else "#06b6d4"
    strokeStyle := if active then "#ffffff" else "#22d3ee"
    lineWidth := if active then 8 else 3
    segments := HAND_CONNECTIONS.map fun c =>
      (scaled.getD c.1 ⟨0, 0⟩, scaled.getD c.2 ⟨0, 0⟩)
    nodes := scaled.enum.map fun p =>
      (p.2,
       if active && p.1 == 4 then (12 : ℚ) else 4,
       if p.1 == 4 then (if active then "#ffffff" else "#22d3ee") else "#22d3ee") }

/-- The Bubble literal of lines 157-164: oracle id string, quote text,
thumb-tip anchor, `driftX = (Math.random() - 0.5) * 200`,
`rotation = (Math.random() - 0.5) * 10`. -/
def mkBubble (rnd : Rand) (text : String) (spawnPoint : Point) : Bubble :=
  { id := rnd.idStr
    text := text
    x := spawnPoint.x
    y := spawnPoint.y
    driftX := (rnd.driftR - 1/2) * 200
    rotation := (rnd.rotR - 1/2) * 10 }

/-- One iteration of the `results.landmarks.forEach` body
(lines 107-173) for the hand at `handIndex`: scale the landmarks,
classify (throwing, i.e. `none`, when a needed landmark is missing),
draw the skeleton, and, when the gesture is active and the cooldown
gate is open, append a new bubble, stamp the slot, advance the quote
index and schedule the expiry timer.  Returns the gesture flag, the
drawing output and the updated state. -/
def processHand (cfg : Config) (st : AppState) (now : ℚ) (handIndex : ℕ)
    (landmarks : List Point) (rnd : Rand) : Option (Bool × RenderOut × AppState) :=
  let scaled := landmarks.map (scaleToDisplay cfg.canvasW cfg.canvasH)
  (classifyHand landmarks).bind fun thumbsUpActive =>
    let render := drawHand thumbsUpActive scaled
    if thumbsUpActive && gateOpen cfg.spawnCooldown now (slotLastFired st handIndex) then
      let spawnPoint := scaled.getD 4 ⟨0, 0⟩
      let newBubble := mkBubble rnd (cfg.quotes.getD st.quoteIndex "") spawnPoint
      some (thumbsUpActive, render,
        { st with
          bubbles := st.bubbles ++ [newBubble]
          lastSpawnTime := st.lastSpawnTime.set handIndex now
          quoteIndex := (st.quoteIndex + 1) % cfg.quotes.length
          timers := st.timers ++ [(now + cfg.bubbleLifetime, newBubble.id)] })
    else
      some (thumbsUpActive, render, st)

/-- The `forEach` over all detected hands with the local
`handsActiveThisFrame` counter (lines 104-174).  A thrown classification
(`none`) aborts the whole callback (the remaining hands are not
processed and no count is reported), exactly as a TypeError would. -/
def processHandsAux (cfg : Config) (now : ℚ) (rnds : List Rand) :
    ℕ → List (List Point) → ℕ → AppState → Option (ℕ × AppState)
  | _, [], count, st => some (count, st)
  | handIndex, lm :: rest, count, st =>
    (processHand cfg st now handIndex lm (rnds.getD handIndex ⟨"", 0, 0⟩)).bind
      fun r => processHandsAux cfg now rnds (handIndex + 1) rest
        (if r.1 then count + 1 else count) r.2.2

/-- One complete frame of `predict` (lines 96-177), given the detected
hands: reset the local counter, process each hand in order, then report
the counter via `setActiveHandsCount` (line 176). -/
def processFrame (cfg : Config) (st : AppState) (now : ℚ)
    (hands : List (List Point)) (rnds : List Rand) : Option AppState :=
  (processHandsAux cfg now rnds 0 hands 0 st).map
    fun r => { r.2 with activeHandsCount := r.1 }

/-- The cooldown gate of one slot over a trace of frames
(time, gesture-active), recording the slot timestamp (line 167) and the
list of fire times: one `if` of line 155 per frame. -/
def gateStep (cooldown : ℚ) (st : ℚ × List ℚ) (fr : ℚ × Bool) : ℚ × List ℚ :=
  if fr.2 && gateOpen cooldown fr.1 st.1 then (fr.1, st.2 ++ [fr.1]) else st

/-- Runs the cooldown gate of one slot from initial slot value
`lastFired0` over a chronological trace of frames; returns the final
slot value and the fire times. -/
def runGate (cooldown lastFired0 : ℚ) (frames : List (ℚ × Bool)) : ℚ × List ℚ :=
  frames.foldl (gateStep cooldown) (lastFired0, [])

/-- Removal of a bubble from the live list (line 171):
`prev.filter(b => b.id !== newBubble.id)`. -/
def removeBubble (bs : List Bubble) (i : String) : List Bubble :=
  bs.filter fun b => b.id != i

/-- A lifecycle event: a spawn (`setBubbles(prev => [...prev, newBubble])`,
line 166) or the firing of an expiry timer (lines 170-172). -/
inductive Ev where
  | spawn (b : Bubble)
  | expire (i : String)
deriving DecidableEq, Repr

/-- Applying one lifecycle event to the live bubble list. -/
def stepEv (bs : List Bubble) : Ev → List Bubble
  | Ev.spawn b => bs ++ [b]
  | Ev.expire i => removeBubble bs i

/-- Applying a timed event sequence in order to the live bubble list. -/
def runEvents (bs : List Bubble) (es : List (ℚ × Ev)) : List Bubble :=
  es.foldl (fun acc e => stepEv acc e.2) bs

/-- Chronological ordering of timed events. -/
def evLE : ℚ × Ev → ℚ × Ev → Prop := fun a b => a.1 ≤ b.1

instance : DecidableRel evLE := fun a b => inferInstanceAs (Decidable (a.1 ≤ b.1))

instance : IsTotal (ℚ × Ev) evLE := ⟨fun a b => le_total a.1 b.1⟩

instance : IsTrans (ℚ × Ev) evLE := ⟨fun _ _ _ h h2 => le_trans h h2⟩

/-- The events generated by a spawn history: each spawn at time `s` adds
the bubble at `s` and schedules its removal at `s + ttl`
(`setTimeout(..., BUBBLE_LIFETIME)`, lines 170-172). -/
def eventsOf (ttl : ℚ) (spawns : List (ℚ × Bubble)) : List (ℚ × Ev) :=
  spawns.map (fun p => (p.1, Ev.spawn p.2)) ++
  spawns.map (fun p => (p.1 + ttl, Ev.expire p.2.id))

/-- The events of a spawn history in chronological order. -/
def schedule (ttl : ℚ) (spawns : List (ℚ × Bubble)) : List (ℚ × Ev) :=
  (eventsOf ttl spawns).insertionSort evLE

/-- The live bubble list at time `t`: all events due at or before `t`,
applied in chronological order to the empty initial list. -/
def liveAt (ttl : ℚ) (spawns : List (ℚ × Bubble)) (t : ℚ) : List Bubble :=
  runEvents [] ((schedule ttl spawns).filter fun e => decide (e.1 ≤ t))

/-- Quote selection and round-robin advance for one successful spawn
(lines 159 and 168). -/
def quoteStep (quotes : List String) (i : ℕ) : String × ℕ :=
  (quotes.getD i "", (i + 1) % quotes.length)

/-- The quote index after `n` successful spawns starting from `i0`. -/
def quoteIndexAfter (quotes : List String) (i0 : ℕ) : ℕ → ℕ
  | 0 => i0
  | n + 1 => (quoteStep quotes (quoteIndexAfter quotes i0 n)).2

/-- The text used by the (n+1)-th successful spawn starting from
index `i0`. -/
def quoteTextOf (quotes : List String) (i0 n : ℕ) : String :=
  (quoteStep quotes (quoteIndexAfter quotes i0 n)).1

/-- The texts of `k` consecutive successful spawns starting from
index `i0`. -/
def quotesUsed (quotes : List String) (i0 k : ℕ) : List String :=
  (List.range k).map (quoteTextOf quotes i0)

/-- A concrete thumbs-up 21-landmark set (test vector). -/
def lm21 : List Point :=
  [⟨0, 0⟩, ⟨0, 0⟩, ⟨0, 3⟩, ⟨0, 2⟩, ⟨0, 1⟩,
   ⟨0, 0⟩, ⟨0, 1⟩, ⟨0, 0⟩, ⟨0, 2⟩,
   ⟨0, 0⟩, ⟨0, 1⟩, ⟨0, 0⟩, ⟨0, 2⟩,
   ⟨0, 0⟩, ⟨0, 1⟩, ⟨0, 0⟩, ⟨0, 2⟩,
   ⟨0, 0⟩, ⟨0, 1⟩, ⟨0, 0⟩, ⟨0, 2⟩]

/-- A malformed hand: only 5 landmarks (test vector). -/
def lmShort : List Point :=
  [⟨0, 0⟩, ⟨0, 0⟩, ⟨0, 3⟩, ⟨0, 2⟩, ⟨0, 1⟩]

/-- A concrete configuration (test vector): two quotes, cooldown 400,
lifetime 9000, unit canvas. -/
def cfg0 : Config :=
  ⟨["q1", "q2"], 400, 9000, 1, 1⟩

/-- The initial component state (test vector): no bubbles, slots [0, 0],
quote index 0. -/
def st0 : AppState :=
  ⟨[], [0, 0], 0, 0, []⟩

/-- A concrete randomness bundle (test vector). -/
def rnd0 : Rand :=
  ⟨"dupid", 0, 0⟩

/-- An alternative initial state whose hand-0 cooldown slot was stamped
recently (test vector). -/
def stAlt : AppState :=
  ⟨[], [450, 0], 0, 0, []⟩

/-- The state after `processHand cfg0 st0 500 0 lm21 rnd0`: one bubble
spawned, slot 0 stamped at 500, quote index advanced, one expiry timer
(test vector). -/
def s0w : AppState :=
  { st0 with
    bubbles := st0.bubbles ++
      [mkBubble rnd0 (cfg0.quotes.getD st0.quoteIndex "")
        ((lm21.map (scaleToDisplay cfg0.canvasW cfg0.canvasH)).getD 4 ⟨0, 0⟩)]
    lastSpawnTime := st0.lastSpawnTime.set 0 500
    quoteIndex := (st0.quoteIndex + 1) % cfg0.quotes.length
    timers := st0.timers ++
      [(500 + cfg0.bubbleLifetime,
        (mkBubble rnd0 (cfg0.quotes.getD st0.quoteIndex "")
          ((lm21.map (scaleToDisplay cfg0.canvasW cfg0.canvasH)).getD 4 ⟨0, 0⟩)).id)] }

/-- The state after a second spawn `processHand cfg0 s0w 1000 0 lm21 rnd0`
with the same randomness oracle output (test vector). -/
def s1w : AppState :=
  { s0w with
    bubbles := s0w.bubbles ++
      [mkBubble rnd0 (cfg0.quotes.getD s0w.quoteIndex "")
        ((lm21.map (scaleToDisplay cfg0.canvasW cfg0.canvasH)).getD 4 ⟨0, 0⟩)]
    lastSpawnTime := s0w.lastSpawnTime.set 0 1000
    quoteIndex := (s0w.quoteIndex + 1) % cfg0.quotes.length
    timers := s0w.timers ++
      [(1000 + cfg0.bubbleLifetime,
        (mkBubble rnd0 (cfg0.quotes.getD s0w.quoteIndex "")
          ((lm21.map (scaleToDisplay cfg0.canvasW cfg0.canvasH)).getD 4 ⟨0, 0⟩)).id)] }

/-- A concrete bubble (test vector). -/
def bW : Bubble :=
  ⟨"w1", "t", 0, 0, 0, 0⟩

/-- Two concrete bubbles sharing the id "dup" (test vector for the
effect of colliding random ids). -/
def bA : Bubble :=
  ⟨"dup", "a", 0, 0, 0, 0⟩

/-- See `bA`. -/
def bB : Bubble :=
  ⟨"dup", "b", 0, 0, 0, 0⟩

end Kinetic

namespace Kinetic

theorem classifyHand_eq_some (l : List Point) (h : 21 ≤ l.length) :
    classifyHand l =
      some (decide (yAt l 4 < yAt l 3) && decide (yAt l 3 < yAt l 2) &&
            decide (yAt l 8 > yAt l 6) && decide (yAt l 12 > yAt l 10) &&
            decide (yAt l 16 > yAt l 14) && decide (yAt l 20 > yAt l 18)) := by
  have h4 : l[4]? = some l[4] := List.getElem?_eq_getElem (by omega)
  have h3 : l[3]? = some l[3] := List.getElem?_eq_getElem (by omega)
  have h2 : l[2]? = some l[2] := List.getElem?_eq_getElem (by omega)
  have h8 : l[8]? = some l[8] := List.getElem?_eq_getElem (by omega)
  have h6 : l[6]? = some l[6] := List.getElem?_eq_getElem (by omega)
  have h12 : l[12]? = some l[12] := List.getElem?_eq_getElem (by omega)
  have h10 : l[10]? = some l[10] := List.getElem?_eq_getElem (by omega)
  have h16 : l[16]? = some l[16] := List.getElem?_eq_getElem (by omega)
  have h14 : l[14]? = some l[14] := List.getElem?_eq_getElem (by omega)
  have h20 : l[20]? = some l[20] := List.getElem?_eq_getElem (by omega)
  have h18 : l[18]? = some l[18] := List.getElem?_eq_getElem (by omega)
  simp [classifyHand, yAt, h4, h3, h2, h8, h6, h12, h10, h16, h14, h20, h18]

/-- Claim C1: for every hand landmark set with at least 21 points, the
classifier returns gesture-active = true iff landmark4.y < landmark3.y,
landmark3.y < landmark2.y, landmark8.y > landmark6.y,
landmark12.y > landmark10.y, landmark16.y > landmark14.y and
landmark20.y > landmark18.y, all strict; an exact tie in any compared
pair yields false (the result is `some false`, never `none`, on a
21-point set failing any inequality). -/
theorem C1_classifier_active_iff (l : List Point) (h : 21 ≤ l.length) :
    (classifyHand l = some true ↔
      (yAt l 4 < yAt l 3 ∧ yAt l 3 < yAt l 2 ∧ yAt l 8 > yAt l 6 ∧
       yAt l 12 > yAt l 10 ∧ yAt l 16 > yAt l 14 ∧ yAt l 20 > yAt l 18)) ∧
    (¬ (yAt l 4 < yAt l 3 ∧ yAt l 3 < yAt l 2 ∧ yAt l 8 > yAt l 6 ∧
        yAt l 12 > yAt l 10 ∧ yAt l 16 > yAt l 14 ∧ yAt l 20 > yAt l 18) →
      classifyHand l = some false) := by
  rw [classifyHand_eq_some l h]
  constructor
  · simp [Bool.and_eq_true, decide_eq_true_iff, and_assoc]
  · intro hne
    refine congrArg some (Bool.eq_false_iff.mpr fun ht => hne ?_)
    simpa [Bool.and_eq_true, decide_eq_true_iff, and_assoc] using ht

/-- Witness for C1 at the concrete thumbs-up landmark set `lm21`. -/
theorem C1_witness :
    (21 : ℕ) ≤ lm21.length ∧ classifyHand lm21 = some true :=
  ⟨by decide,
   (C1_classifier_active_iff lm21 (by decide)).1.mpr (by decide)⟩

theorem classifyHand_isSome_iff (l : List Point) :
    (classifyHand l).isSome = true ↔ 21 ≤ l.length := by
  constructor
  · intro h
    rw [Option.isSome_iff_exists] at h
    obtain ⟨b, hb⟩ := h
    simp only [classifyHand, Option.bind_eq_some] at hb
    obtain ⟨p4, h4, p3, h3, p2, h2, p8, h8, p6, h6, p12, h12, p10, h10,
            p16, h16, p14, h14, p20, h20, p18, h18, -⟩ := hb
    obtain ⟨h20', -⟩ := List.getElem?_eq_some_iff.mp h20
    omega
  · intro h
    rw [classifyHand_eq_some l h]
    rfl

theorem processHand_eq_some_iff (cfg : Config) (st : AppState) (now : ℚ)
    (handIndex : ℕ) (landmarks : List Point) (rnd : Rand) :
    (processHand cfg st now handIndex landmarks rnd).isSome = true ↔
      21 ≤ landmarks.length := by
  rw [← classifyHand_isSome_iff]
  cases hc : classifyHand landmarks with
  | none => simp [processHand, hc]
  | some a =>
    simp only [processHand, hc, Option.isSome_some, Option.some_bind, iff_true]
    split <;> rfl

theorem processHand_shape (cfg : Config) (st : AppState) (now : ℚ)
    (handIndex : ℕ) (landmarks : List Point) (rnd : Rand)
    (active : Bool) (render : RenderOut) (st' : AppState)
    (hp : processHand cfg st now handIndex landmarks rnd =
            some (active, render, st')) :
    classifyHand landmarks = some active ∧
    render = drawHand active
      (landmarks.map (scaleToDisplay cfg.canvasW cfg.canvasH)) ∧
    ((active && gateOpen cfg.spawnCooldown now (slotLastFired st handIndex)) = true →
      st' = { st with
        bubbles := st.bubbles ++
          [mkBubble rnd (cfg.quotes.getD st.quoteIndex "")
            ((landmarks.map (scaleToDisplay cfg.canvasW cfg.canvasH)).getD 4 ⟨0, 0⟩)]
        lastSpawnTime := st.lastSpawnTime.set handIndex now
        quoteIndex := (st.quoteIndex + 1) % cfg.quotes.length
        timers := st.timers ++
          [(now + cfg.bubbleLifetime,
            (mkBubble rnd (cfg.quotes.getD st.quoteIndex "")
              ((landmarks.map (scaleToDisplay cfg.canvasW cfg.canvasH)).getD 4 ⟨0, 0⟩)).id)] }) ∧
    ((active && gateOpen cfg.spawnCooldown now (slotLastFired st handIndex)) = false →
      st' = st) := by
  cases hc : classifyHand landmarks with
  | none => simp [processHand, hc] at hp
  | some a =>
    simp only [processHand, hc, Option.some_bind] at hp
    by_cases hg : (a && gateOpen cfg.spawnCooldown now (slotLastFired st handIndex)) = true
    · rw [if_pos hg] at hp
      simp only [Option.some.injEq, Prod.mk.injEq] at hp
      obtain ⟨ha, hr, hs⟩ := hp
      subst ha
      refine ⟨rfl, hr.symm, fun _ => hs.symm, fun hf => absurd hg (by rw [hf]; simp)⟩
    · rw [if_neg hg] at hp
      simp only [Option.some.injEq, Prod.mk.injEq] at hp
      obtain ⟨ha, hr, hs⟩ := hp
      subst ha
      exact ⟨rfl, hr.symm, fun ht => absurd ht hg, fun _ => hs.symm⟩

theorem processHandsAux_isSome_iff (cfg : Config) (now : ℚ) (rnds : List Rand) :
    ∀ (hands : List (List Point)) (handIndex count : ℕ) (st : AppState),
      (processHandsAux cfg now rnds handIndex hands count st).isSome = true ↔
        ∀ lm ∈ hands, 21 ≤ lm.length := by
  intro hands
  induction hands with
  | nil => intro handIndex count st; simp [processHandsAux]
  | cons lm rest ih =>
    intro handIndex count st
    cases hp : processHand cfg st now handIndex lm (rnds.getD handIndex ⟨"", 0, 0⟩) with
    | none =>
      have hlen : ¬ 21 ≤ lm.length := by
        rw [← processHand_eq_some_iff cfg st now handIndex lm (rnds.getD handIndex ⟨"", 0, 0⟩), hp]
        simp
      simp only [processHandsAux, hp, Option.none_bind, Option.isSome_none,
        Bool.false_eq_true, false_iff, not_forall]
      exact ⟨lm, List.mem_cons_self lm rest, hlen⟩
    | some r =>
      have hlen : 21 ≤ lm.length := by
        rw [← processHand_eq_some_iff cfg st now handIndex lm (rnds.getD handIndex ⟨"", 0, 0⟩), hp]
        rfl
      simp only [processHandsAux, hp, Option.some_bind, List.mem_cons]
      rw [ih]
      constructor
      · intro h lm' hm
        rcases hm with hm | hm
        · rw [hm]; exact hlen
        · exact h lm' hm
      · intro h lm' hm
        exact h lm' (Or.inr hm)

theorem processHandsAux_count (cfg : Config) (now : ℚ) (rnds : List Rand) :
    ∀ (hands : List (List Point)) (handIndex count : ℕ) (st : AppState),
      (∀ lm ∈ hands, 21 ≤ lm.length) →
      ∃ st', processHandsAux cfg now rnds handIndex hands count st =
        some (count + hands.countP (fun lm => classifyHand lm == some true), st') := by
  intro hands
  induction hands with
  | nil => intro handIndex count st _; exact ⟨st, by simp [processHandsAux]⟩
  | cons lm rest ih =>
    intro handIndex count st h
    have hlen : 21 ≤ lm.length := h lm (List.mem_cons_self lm rest)
    have hsome : (processHand cfg st now handIndex lm (rnds.getD handIndex ⟨"", 0, 0⟩)).isSome = true :=
      (processHand_eq_some_iff cfg st now handIndex lm (rnds.getD handIndex ⟨"", 0, 0⟩)).mpr hlen
    obtain ⟨r, hr⟩ := Option.isSome_iff_exists.mp hsome
    obtain ⟨hcl, -, -, -⟩ := processHand_shape cfg st now handIndex lm
      (rnds.getD handIndex ⟨"", 0, 0⟩) r.1 r.2.1 r.2.2 (by rw [hr])
    obtain ⟨st', hst'⟩ := ih (handIndex + 1) (if r.1 then count + 1 else count) r.2.2
      (fun lm' hm => h lm' (List.mem_cons_of_mem lm hm))
    refine ⟨st', ?_⟩
    simp only [processHandsAux, hr, Option.some_bind, hst']
    congr 1
    rw [List.countP_cons]
    have hplm : (classifyHand lm == some true) = r.1 := by
      rw [hcl]
      cases r.1 <;> rfl
    rw [hplm]
    cases r.1
    · simp
    · simp
      omega

/-- Claim C3 counterexample: a frame containing a hand with only 5
landmarks followed by a full valid thumbs-up hand.  The claim says the
malformed hand is skipped without aborting the loop and without
affecting the other hand; the code instead throws a TypeError on the
missing landmark access (`none`): the second hand is never processed,
nothing is spawned and no count is reported. -/
theorem C3_counterexample :
    processFrame cfg0 st0 500 [lmShort, lm21] [rnd0, rnd0] = none := by decide

/-- Claim C3 amended: processing a frame succeeds iff every detected
hand has at least 21 landmarks; a hand with fewer landmarks makes the
whole per-frame callback throw (aborting the remaining hands and the
loop), rather than being skipped individually. -/
theorem C3_short_hand_aborts_frame (cfg : Config) (st : AppState) (now : ℚ)
    (hands : List (List Point)) (rnds : List Rand) :
    (processFrame cfg st now hands rnds).isSome = true ↔
      ∀ lm ∈ hands, 21 ≤ lm.length := by
  unfold processFrame
  rw [Option.isSome_map']
  exact processHandsAux_isSome_iff cfg now rnds hands 0 0 st

/-- Witness for the amended C3 at a concrete valid frame. -/
theorem C3_witness :
    (processFrame cfg0 st0 500 [lm21] [rnd0]).isSome = true :=
  (C3_short_hand_aborts_frame cfg0 st0 500 [lm21] [rnd0]).mpr (by decide)

/-- Claim C8: when a frame completes (all detected hands have the
expected 21 landmarks), the count reported to the display layer equals
exactly the number of detected hands whose classifier output is
gesture-active = true; the count is recomputed from zero for the frame
(the statement holds for every prior state, whatever its previous
count). -/
theorem C8_active_hands_count (cfg : Config) (st : AppState) (now : ℚ)
    (hands : List (List Point)) (rnds : List Rand)
    (h : ∀ lm ∈ hands, 21 ≤ lm.length) :
    ∃ st', processFrame cfg st now hands rnds = some st' ∧
      st'.activeHandsCount =
        hands.countP (fun lm => classifyHand lm == some true) := by
  obtain ⟨st', hst'⟩ := processHandsAux_count cfg now rnds hands 0 0 st h
  exact ⟨{ st' with activeHandsCount :=
            hands.countP (fun lm => classifyHand lm == some true) },
    by simp [processFrame, hst'], rfl⟩

/-- Witness for C8: a frame with one thumbs-up hand and one open hand
reports exactly one active hand. -/
theorem C8_witness :
    ∃ st', processFrame cfg0 st0 500 [lm21] [rnd0] = some st' ∧
      st'.activeHandsCount =
        List.countP (fun lm => classifyHand lm == some true) [lm21] :=
  C8_active_hands_count cfg0 st0 500 [lm21] [rnd0] (by decide)

/-- Claim C9: for every 21-point landmark set and positive canvas
dimensions, the classifier computed on the raw normalized landmarks
(as the code does, lines 114-124 read `landmarks`, not
`scaledLandmarks`) equals the classifier computed on the display-space
landmarks, because every comparison is on y-coordinates and is
preserved by multiplication by a positive height. -/
theorem C9_classifier_scaling_invariant (l : List Point) (w hgt : ℚ)
    (hlen : 21 ≤ l.length) (_hw : 0 < w) (hh : 0 < hgt) :
    classifyHand (l.map (scaleToDisplay w hgt)) = classifyHand l := by
  have hlen' : 21 ≤ (l.map (scaleToDisplay w hgt)).length := by
    rw [List.length_map]; exact hlen
  rw [classifyHand_eq_some _ hlen', classifyHand_eq_some l hlen]
  have hy : ∀ i, i < l.length → yAt (l.map (scaleToDisplay w hgt)) i = yAt l i * hgt := by
    intro i hi
    simp [yAt, List.getElem?_map, List.getElem?_eq_getElem hi, scaleToDisplay]
  rw [hy 4 (by omega), hy 3 (by omega), hy 2 (by omega), hy 8 (by omega),
      hy 6 (by omega), hy 12 (by omega), hy 10 (by omega), hy 16 (by omega),
      hy 14 (by omega), hy 20 (by omega), hy 18 (by omega)]
  simp [mul_lt_mul_right hh]

/-- Witness for C9 at the concrete landmark set `lm21`, width 1280 and
height 720. -/
theorem C9_witness :
    (21 : ℕ) ≤ lm21.length ∧ (0 : ℚ) < 1280 ∧ (0 : ℚ) < 720 ∧
      classifyHand (lm21.map (scaleToDisplay 1280 720)) = classifyHand lm21 :=
  ⟨by decide, by norm_num, by norm_num,
   C9_classifier_scaling_invariant lm21 1280 720 (by decide) (by norm_num) (by norm_num)⟩

theorem runGate_chain_aux (cooldown : ℚ) (hc : 0 ≤ cooldown) :
    ∀ (frames : List (ℚ × Bool)) (st : ℚ × List ℚ),
      st.2.Chain' (fun x y => x + cooldown < y) → (∀ t ∈ st.2, t ≤ st.1) →
      ((frames.foldl (gateStep cooldown) st).2.Chain' (fun x y => x + cooldown < y) ∧
       ∀ t ∈ (frames.foldl (gateStep cooldown) st).2,
         t ≤ (frames.foldl (gateStep cooldown) st).1) := by
  intro frames
  induction frames with
  | nil => intro st h1 h2; exact ⟨h1, h2⟩
  | cons fr rest ih =>
    intro st h1 h2
    rw [List.foldl_cons]
    by_cases hcond : (fr.2 && gateOpen cooldown fr.1 st.1) = true
    · have hopen : cooldown < fr.1 - st.1 := by
        have := ((Bool.and_eq_true _ _).mp hcond).2
        simpa [gateOpen] using this
      have hlt : st.1 < fr.1 := by linarith
      have hstep : gateStep cooldown st fr = (fr.1, st.2 ++ [fr.1]) := by
        unfold gateStep
        rw [if_pos hcond]
      rw [hstep]
      apply ih
      · rw [List.chain'_append]
        refine ⟨h1, List.chain'_singleton _, ?_⟩
        intro x hx y hy
        have hxl : x ∈ st.2 := by
          obtain ⟨hne, hxe⟩ := List.mem_getLast?_eq_getLast hx
          rw [hxe]
          exact List.getLast_mem hne
        have hy' : y = fr.1 := (by simpa using hy :).symm
        have hxb : x ≤ st.1 := h2 x hxl
        rw [hy']
        linarith
      · intro t ht
        rcases List.mem_append.mp ht with ht | ht
        · exact le_of_lt (lt_of_le_of_lt (h2 t ht) hlt)
        · simp only [List.mem_singleton] at ht
          rw [ht]
    · have hstep : gateStep cooldown st fr = st := by
        unfold gateStep
        rw [if_neg hcond]
      rw [hstep]
      exact ih st h1 h2

/-- Claim C2: a spawn trigger fires on a hand slot in a frame iff the
classifier is active for that hand this frame and now minus the slot's
last-fired timestamp strictly exceeds the cooldown; when it fires the
slot is stamped with now, and when it does not fire the state is
untouched (in particular the gate never consults earlier frames, so a
continuously held gesture re-fires purely on time).  Over any
chronological frame trace of one slot, consecutive fire times are
spaced strictly more than the cooldown apart. -/
theorem C2_cooldown_gate (cfg : Config) (st : AppState) (now : ℚ)
    (handIndex : ℕ) (landmarks : List Point) (rnd : Rand)
    (active : Bool) (render : RenderOut) (st' : AppState)
    (hi : handIndex < st.lastSpawnTime.length)
    (hp : processHand cfg st now handIndex landmarks rnd =
            some (active, render, st')) :
    (st'.bubbles.length = st.bubbles.length + 1 ↔
      (active = true ∧ now - slotLastFired st handIndex > cfg.spawnCooldown)) ∧
    (st'.bubbles.length = st.bubbles.length + 1 →
      slotLastFired st' handIndex = now) ∧
    (¬ (active = true ∧ now - slotLastFired st handIndex > cfg.spawnCooldown) →
      st' = st) ∧
    (∀ last0 : ℚ, ∀ frames : List (ℚ × Bool), 0 ≤ cfg.spawnCooldown →
      ((runGate cfg.spawnCooldown last0 frames).2).Chain'
        (fun x y => x + cfg.spawnCooldown < y)) := by
  obtain ⟨-, -, hpos, hneg⟩ := processHand_shape cfg st now handIndex landmarks rnd
    active render st' hp
  have hchain : ∀ last0 : ℚ, ∀ frames : List (ℚ × Bool), 0 ≤ cfg.spawnCooldown →
      ((runGate cfg.spawnCooldown last0 frames).2).Chain'
        (fun x y => x + cfg.spawnCooldown < y) := by
    intro last0 frames hc
    exact (runGate_chain_aux cfg.spawnCooldown hc frames (last0, [])
      List.chain'_nil (by simp)).1
  by_cases hg : (active && gateOpen cfg.spawnCooldown now (slotLastFired st handIndex)) = true
  · have hst' := hpos hg
    have hfire : active = true ∧ now - slotLastFired st handIndex > cfg.spawnCooldown := by
      obtain ⟨ha, hb⟩ := (Bool.and_eq_true _ _).mp hg
      exact ⟨ha, by simpa [gateOpen] using hb⟩
    refine ⟨?_, ?_, fun hn => absurd hfire hn, hchain⟩
    · rw [hst']
      constructor
      · intro _
        exact hfire
      · intro _
        simp
    · intro _
      rw [hst']
      simp only [slotLastFired, List.getD, List.get?_eq_getElem?]
      rw [List.getElem?_set_self hi]
      rfl
  · have hst' := hneg (Bool.not_eq_true _ ▸ hg)
    have hnofire : ¬ (active = true ∧ now - slotLastFired st handIndex > cfg.spawnCooldown) := by
      intro ⟨ha, hb⟩
      apply hg
      rw [ha, Bool.true_and]
      simpa [gateOpen] using hb
    refine ⟨?_, ?_, fun _ => hst', hchain⟩
    · rw [hst']
      constructor
      · intro hlen
        omega
      · intro hf
        exact absurd hf hnofire
    · intro hlen
      rw [hst'] at hlen
      omega

/-- Witness for C2: at the concrete thumbs-up frame the trigger fires
(one bubble appended), the hand-0 slot is stamped with the frame time
500, and a concrete three-frame trace of fire times is spaced more
than the cooldown 400 apart. -/
theorem C2_witness :
    s0w.bubbles.length = st0.bubbles.length + 1 ∧
    slotLastFired s0w 0 = 500 ∧
    ((runGate 400 0 [(500, true), (650, true), (1000, true)]).2).Chain'
      (fun x y => x + 400 < y) := by
  have hcl : classifyHand lm21 = some true := by decide
  have h0 : slotLastFired st0 0 = 0 := rfl
  have hgate : gateOpen cfg0.spawnCooldown 500 (slotLastFired st0 0) = true := by
    rw [h0]
    show decide ((500 : ℚ) - 0 > 400) = true
    rw [decide_eq_true_iff]
    norm_num
  have hp : processHand cfg0 st0 500 0 lm21 rnd0 =
      some (true, drawHand true
        (lm21.map (scaleToDisplay cfg0.canvasW cfg0.canvasH)), s0w) := by
    simp only [processHand, hcl, Option.some_bind, hgate, Bool.and_self, if_true]
    rfl
  obtain ⟨hiff, hupd, -, hchain⟩ := C2_cooldown_gate cfg0 st0 500 0 lm21 rnd0 true
    (drawHand true (lm21.map (scaleToDisplay cfg0.canvasW cfg0.canvasH))) s0w
    (by decide) hp
  have hfired : s0w.bubbles.length = st0.bubbles.length + 1 := by
    apply hiff.mpr
    refine ⟨rfl, ?_⟩
    rw [h0]
    show (500 : ℚ) - 0 > 400
    norm_num
  refine ⟨hfired, hupd hfired, ?_⟩
  have := hchain 0 [(500, true), (650, true), (1000, true)]
    (by show (0 : ℚ) ≤ 400; norm_num)
  exact this

/-- Claim C7: the per-hand drawing output (stroke width and color, glow
parameters, node marker sizes and colors) is a function of the current
landmark set and the current-frame gesture flag only: two runs on the
same landmark set, from arbitrary states (in particular arbitrary
cooldown slot timestamps), arbitrary frame times and arbitrary
randomness, produce the same gesture flag and identical drawing
output. -/
theorem C7_render_pure_of_landmarks (cfg : Config) (st1 st2 : AppState)
    (now1 now2 : ℚ) (i1 i2 : ℕ) (lm : List Point) (rnd1 rnd2 : Rand)
    (a1 a2 : Bool) (r1 r2 : RenderOut) (s1 s2 : AppState)
    (h1 : processHand cfg st1 now1 i1 lm rnd1 = some (a1, r1, s1))
    (h2 : processHand cfg st2 now2 i2 lm rnd2 = some (a2, r2, s2)) :
    a1 = a2 ∧ r1 = r2 := by
  obtain ⟨hc1, hr1, -, -⟩ := processHand_shape cfg st1 now1 i1 lm rnd1 a1 r1 s1 h1
  obtain ⟨hc2, hr2, -, -⟩ := processHand_shape cfg st2 now2 i2 lm rnd2 a2 r2 s2 h2
  rw [hc1] at hc2
  have ha : a1 = a2 := Option.some.inj hc2
  subst ha
  exact ⟨rfl, by rw [hr1, hr2]⟩

/-- Witness for C7: the same thumbs-up hand processed from `st0`
(cooldown open, a spawn happens) and from `stAlt` (slot stamped at 450,
no spawn) yields the same flag and identical drawing output. -/
theorem C7_witness :
    (processHand cfg0 st0 500 0 lm21 rnd0).map (fun r => (r.1, r.2.1)) =
    (processHand cfg0 stAlt 500 0 lm21 rnd0).map (fun r => (r.1, r.2.1)) := by
  cases h1 : processHand cfg0 st0 500 0 lm21 rnd0 with
  | none =>
    have : (processHand cfg0 st0 500 0 lm21 rnd0).isSome = true :=
      (processHand_eq_some_iff cfg0 st0 500 0 lm21 rnd0).mpr (by decide)
    rw [h1] at this
    exact absurd this (by simp)
  | some p1 =>
    cases h2 : processHand cfg0 stAlt 500 0 lm21 rnd0 with
    | none =>
      have : (processHand cfg0 stAlt 500 0 lm21 rnd0).isSome = true :=
        (processHand_eq_some_iff cfg0 stAlt 500 0 lm21 rnd0).mpr (by decide)
      rw [h2] at this
      exact absurd this (by simp)
    | some p2 =>
      obtain ⟨ha, hr⟩ := C7_render_pure_of_landmarks cfg0 st0 stAlt 500 500 0 0 lm21
        rnd0 rnd0 p1.1 p2.1 p1.2.1 p2.2.1 p1.2.2 p2.2.2 (by rw [h1]) (by rw [h2])
      simp [ha, hr]

theorem quoteIndexAfter_eq (quotes : List String) (i0 : ℕ)
    (hi : i0 < quotes.length) :
    ∀ n, quoteIndexAfter quotes i0 n = (i0 + n) % quotes.length := by
  intro n
  induction n with
  | zero =>
    simp only [quoteIndexAfter, Nat.add_zero]
    exact (Nat.mod_eq_of_lt hi).symm
  | succ n ih =>
    simp only [quoteIndexAfter, quoteStep, ih]
    rw [Nat.mod_add_mod, Nat.add_assoc]

theorem map_getD_range (l : List String) :
    (List.range l.length).map (fun n => l.getD n "") = l := by
  apply List.ext_getElem
  · simp
  · intro i h1 h2
    simp only [List.getElem_map, List.getElem_range]
    rw [List.getD_eq_getElem l "" h2]

/-- Claim C6: quote assignment across successful spawns is round-robin
over the shared quote list: the (n+1)-th successful spawn (counted
globally, over all hands) uses the quote at index (i0 + n) mod N; the
first N spawns from a fresh index use each quote exactly once in list
order; after N further spawns the same quote recurs; and each
successful spawn of the frame machine advances the shared cyclic index
exactly once (by `quoteStep`), regardless of which hand spawned. -/
theorem C6_round_robin (quotes : List String) (i0 : ℕ)
    (hi : i0 < quotes.length) :
    (∀ n, quoteTextOf quotes i0 n = quotes.getD ((i0 + n) % quotes.length) "") ∧
    quotesUsed quotes 0 quotes.length = quotes ∧
    (∀ n, quoteTextOf quotes i0 (n + quotes.length) = quoteTextOf quotes i0 n) ∧
    (∀ (cfg : Config) (st : AppState) (now : ℚ) (handIndex : ℕ)
       (landmarks : List Point) (rnd : Rand) (active : Bool)
       (render : RenderOut) (st' : AppState),
      processHand cfg st now handIndex landmarks rnd = some (active, render, st') →
      st'.bubbles.length = st.bubbles.length + 1 →
      st'.quoteIndex = (quoteStep cfg.quotes st.quoteIndex).2 ∧
      st'.bubbles.map Bubble.text =
        st.bubbles.map Bubble.text ++ [(quoteStep cfg.quotes st.quoteIndex).1]) := by
  have hN : 0 < quotes.length := Nat.lt_of_le_of_lt (Nat.zero_le i0) hi
  refine ⟨fun n => ?_, ?_, fun n => ?_, ?_⟩
  · unfold quoteTextOf quoteStep
    rw [quoteIndexAfter_eq quotes i0 hi n]
  · unfold quotesUsed
    have h0 : ∀ n, quoteTextOf quotes 0 n = quotes.getD (n % quotes.length) "" := by
      intro n
      unfold quoteTextOf quoteStep
      rw [quoteIndexAfter_eq quotes 0 hN n, Nat.zero_add]
    calc (List.range quotes.length).map (quoteTextOf quotes 0)
        = (List.range quotes.length).map (fun n => quotes.getD n "") := by
          apply List.map_congr_left
          intro n hn
          rw [h0 n, Nat.mod_eq_of_lt (List.mem_range.mp hn)]
      _ = quotes := map_getD_range quotes
  · unfold quoteTextOf quoteStep
    rw [quoteIndexAfter_eq quotes i0 hi, quoteIndexAfter_eq quotes i0 hi,
        ← Nat.add_assoc, Nat.add_mod_right]
  · intro cfg st now handIndex landmarks rnd active render st' hp hfired
    obtain ⟨-, -, hpos, hneg⟩ := processHand_shape cfg st now handIndex landmarks rnd
      active render st' hp
    by_cases hg : (active && gateOpen cfg.spawnCooldown now (slotLastFired st handIndex)) = true
    · have hst' := hpos hg
      rw [hst']
      exact ⟨rfl, by simp [quoteStep, mkBubble]⟩
    · have hst' := hneg (Bool.not_eq_true _ ▸ hg)
      rw [hst'] at hfired
      omega

/-- Witness for C6 with the two-element quote list of `cfg0`: the first
two spawns use "q1" then "q2", and the third reuses "q1". -/
theorem C6_witness :
    quotesUsed ["q1", "q2"] 0 2 = ["q1", "q2"] ∧
    quoteTextOf ["q1", "q2"] 0 2 = quoteTextOf ["q1", "q2"] 0 0 := by
  obtain ⟨-, hused, hper, -⟩ := C6_round_robin ["q1", "q2"] 0 (by decide)
  exact ⟨hused, hper 0⟩

theorem processHand_eval0 :
    processHand cfg0 st0 500 0 lm21 rnd0 =
      some (true, drawHand true
        (lm21.map (scaleToDisplay cfg0.canvasW cfg0.canvasH)), s0w) := by
  have hcl : classifyHand lm21 = some true := by decide
  have hgate : gateOpen cfg0.spawnCooldown 500 (slotLastFired st0 0) = true := by
    show decide ((500 : ℚ) - 0 > 400) = true
    rw [decide_eq_true_iff]
    norm_num
  simp only [processHand, hcl, Option.some_bind, hgate, Bool.and_self, if_true]
  rfl

theorem processHand_eval1 :
    processHand cfg0 s0w 1000 0 lm21 rnd0 =
      some (true, drawHand true
        (lm21.map (scaleToDisplay cfg0.canvasW cfg0.canvasH)), s1w) := by
  have hcl : classifyHand lm21 = some true := by decide
  have hgate : gateOpen cfg0.spawnCooldown 1000 (slotLastFired s0w 0) = true := by
    show decide ((1000 : ℚ) - 500 > 400) = true
    rw [decide_eq_true_iff]
    norm_num
  simp only [processHand, hcl, Option.some_bind, hgate, Bool.and_self, if_true]
  rfl

/-- Claim C4 counterexample: the code derives ids from `Math.random()`
with no uniqueness check, so two spawns whose random draws produce the
same 9-character string (possible: the generator can repeat, and
distinct floats can share a prefix) yield two currently-live messages
with identical ids: after the two concrete spawns below, the live ids
are ["dupid", "dupid"], not pairwise distinct. -/
theorem C4_counterexample :
    processHand cfg0 s0w 1000 0 lm21 rnd0 =
      some (true, drawHand true
        (lm21.map (scaleToDisplay cfg0.canvasW cfg0.canvasH)), s1w) ∧
    s1w.bubbles.map Bubble.id = ["dupid", "dupid"] ∧
    ¬ (s1w.bubbles.map Bubble.id).Nodup := by
  have hids : s1w.bubbles.map Bubble.id = ["dupid", "dupid"] := by
    simp [s1w, s0w, st0, mkBubble, rnd0]
  refine ⟨processHand_eval1, hids, ?_⟩
  rw [hids]
  decide

/-- Claim C4 amended: a fired spawn appends exactly one Message to the
live set (one more entity than before), whose id is the string drawn
from the random id oracle; that id is distinct from every other live id
provided the drawn string differs from all currently-live ids (the code
itself enforces no uniqueness). -/
theorem C4_spawn_adds_one_fresh_id (cfg : Config) (st : AppState) (now : ℚ)
    (handIndex : ℕ) (landmarks : List Point) (rnd : Rand)
    (active : Bool) (render : RenderOut) (st' : AppState)
    (hp : processHand cfg st now handIndex landmarks rnd =
            some (active, render, st'))
    (hfired : st'.bubbles.length = st.bubbles.length + 1) :
    ∃ b : Bubble, st'.bubbles = st.bubbles ++ [b] ∧ b.id = rnd.idStr ∧
      (rnd.idStr ∉ st.bubbles.map Bubble.id →
        ∀ x ∈ st.bubbles, x.id ≠ b.id) := by
  obtain ⟨-, -, hpos, hneg⟩ := processHand_shape cfg st now handIndex landmarks rnd
    active render st' hp
  by_cases hg : (active && gateOpen cfg.spawnCooldown now (slotLastFired st handIndex)) = true
  · have hst' := hpos hg
    refine ⟨mkBubble rnd (cfg.quotes.getD st.quoteIndex "")
      ((landmarks.map (scaleToDisplay cfg.canvasW cfg.canvasH)).getD 4 ⟨0, 0⟩),
      by rw [hst'], rfl, ?_⟩
    intro hfresh x hx heq
    apply hfresh
    have hxid : x.id = rnd.idStr := heq
    rw [← hxid]
    exact List.mem_map_of_mem Bubble.id hx
  · have hst' := hneg (Bool.not_eq_true _ ▸ hg)
    rw [hst'] at hfired
    omega

/-- Witness for the amended C4 at the concrete first spawn. -/
theorem C4_witness :
    ∃ b : Bubble, s0w.bubbles = st0.bubbles ++ [b] ∧ b.id = rnd0.idStr ∧
      (rnd0.idStr ∉ st0.bubbles.map Bubble.id →
        ∀ x ∈ st0.bubbles, x.id ≠ b.id) :=
  C4_spawn_adds_one_fresh_id cfg0 st0 500 0 lm21 rnd0 true
    (drawHand true (lm21.map (scaleToDisplay cfg0.canvasW cfg0.canvasH))) s0w
    processHand_eval0 (by decide)

theorem mem_runEvents_imp (b : Bubble) :
    ∀ (es : List (ℚ × Ev)) (bs : List Bubble), b ∈ runEvents bs es →
      b ∈ bs ∨ ∃ p ∈ es, p.2 = Ev.spawn b := by
  intro es
  induction es with
  | nil => intro bs h; exact Or.inl h
  | cons e rest ih =>
    intro bs h
    unfold runEvents at h
    rw [List.foldl_cons] at h
    rcases ih (stepEv bs e.2) h with h' | ⟨p, hp, hsp⟩
    · cases he : e.2 with
      | spawn b' =>
        rw [he] at h'
        simp only [stepEv] at h'
        rcases List.mem_append.mp h' with hb | hb
        · exact Or.inl hb
        · simp only [List.mem_singleton] at hb
          exact Or.inr ⟨e, List.mem_cons_self e rest, by rw [he, hb]⟩
      | expire i =>
        rw [he] at h'
        simp only [stepEv, removeBubble] at h'
        exact Or.inl (List.mem_of_mem_filter h')
    · exact Or.inr ⟨p, List.mem_cons_of_mem e hp, hsp⟩

theorem live_bubbles_are_spawned (ttl : ℚ) (spawns : List (ℚ × Bubble))
    (t : ℚ) (b : Bubble) (hb : b ∈ liveAt ttl spawns t) :
    ∃ s, (s, b) ∈ spawns := by
  rcases mem_runEvents_imp b _ [] hb with h | ⟨p, hp, hsp⟩
  · exact absurd h (List.not_mem_nil b)
  · have hp' : p ∈ eventsOf ttl spawns := by
      have h1 : p ∈ schedule ttl spawns := List.mem_of_mem_filter hp
      exact (List.mem_insertionSort evLE).mp h1
    rcases List.mem_append.mp hp' with hm | hm
    · obtain ⟨q, hq, hpq⟩ := List.mem_map.mp hm
      refine ⟨q.1, ?_⟩
      have : q.2 = b := by
        have := hpq ▸ hsp
        exact Ev.spawn.inj this
      rw [← this]
      exact hq
    · obtain ⟨q, -, hpq⟩ := List.mem_map.mp hm
      rw [← hpq] at hsp
      exact absurd hsp (by simp)

/-- Claim C10 counterexample: the concrete spawn whose random draw is 0
(a value `Math.random()` can return) produces `driftX = (0 - 0.5) * 200
= -100`, which is not in the claimed open interval (-100, 100) (and its
`rotation = -5` is likewise not in the open interval (-5, 5)). -/
theorem C10_counterexample :
    processHand cfg0 st0 500 0 lm21 rnd0 =
      some (true, drawHand true
        (lm21.map (scaleToDisplay cfg0.canvasW cfg0.canvasH)), s0w) ∧
    s0w.bubbles.map (fun b => (b.driftX, b.rotation)) = [((-100 : ℚ), (-5 : ℚ))] ∧
    ¬ ((-100 : ℚ) > -100) ∧ ¬ ((-5 : ℚ) > -5) := by
  refine ⟨processHand_eval0, ?_, by norm_num, by norm_num⟩
  norm_num [s0w, st0, mkBubble, rnd0]

/-- Claim C10 amended: with the random draws in [0, 1) (the range of
`Math.random()`), every spawned Message has driftX in the half-open
interval [-100, 100) and rotation in [-5, 5) — the lower endpoints are
attained at draw 0, so the intervals are not open and not symmetric —
and both values are fixed at creation: every bubble in the live set at
any time is, field for field, exactly one of the spawned bubbles
(nothing ever mutates it). -/
theorem C10_drift_rotation_ranges (rnd : Rand) (text : String) (pt : Point)
    (h1 : 0 ≤ rnd.driftR) (h2 : rnd.driftR < 1)
    (h3 : 0 ≤ rnd.rotR) (h4 : rnd.rotR < 1) :
    (-100 ≤ (mkBubble rnd text pt).driftX ∧ (mkBubble rnd text pt).driftX < 100 ∧
     -5 ≤ (mkBubble rnd text pt).rotation ∧ (mkBubble rnd text pt).rotation < 5) ∧
    (∀ (ttl t : ℚ) (spawns : List (ℚ × Bubble)) (b : Bubble),
      b ∈ liveAt ttl spawns t → ∃ s, (s, b) ∈ spawns) := by
  constructor
  · simp only [mkBubble]
    exact ⟨by linarith, by linarith, by linarith, by linarith⟩
  · intro ttl t spawns b hb
    exact live_bubbles_are_spawned ttl spawns t b hb

/-- Witness for the amended C10 at the middle random draw 1/2. -/
theorem C10_witness :
    (-100 ≤ (mkBubble ⟨"w", 1/2, 1/2⟩ "t" ⟨0, 0⟩).driftX ∧
     (mkBubble ⟨"w", 1/2, 1/2⟩ "t" ⟨0, 0⟩).driftX < 100 ∧
     -5 ≤ (mkBubble ⟨"w", 1/2, 1/2⟩ "t" ⟨0, 0⟩).rotation ∧
     (mkBubble ⟨"w", 1/2, 1/2⟩ "t" ⟨0, 0⟩).rotation < 5) ∧
    (∀ (ttl t : ℚ) (spawns : List (ℚ × Bubble)) (b : Bubble),
      b ∈ liveAt ttl spawns t → ∃ s, (s, b) ∈ spawns) :=
  C10_drift_rotation_ranges ⟨"w", 1/2, 1/2⟩ "t" ⟨0, 0⟩
    (by norm_num) (by norm_num) (by norm_num) (by norm_num)

theorem mem_runEvents_of_no_expire (b : Bubble) :
    ∀ (es : List (ℚ × Ev)) (bs : List Bubble), b ∈ bs →
      (∀ p ∈ es, p.2 ≠ Ev.expire b.id) → b ∈ runEvents bs es := by
  intro es
  induction es with
  | nil => intro bs hb _; exact hb
  | cons e rest ih =>
    intro bs hb hne
    unfold runEvents
    rw [List.foldl_cons]
    apply ih
    · cases he : e.2 with
      | spawn b' =>
        simp only [stepEv]
        exact List.mem_append_left _ hb
      | expire i =>
        have hi : i ≠ b.id := fun h => hne e (List.mem_cons_self e rest) (by rw [he, h])
        simp only [stepEv, removeBubble]
        rw [List.mem_filter]
        exact ⟨hb, by simp only [bne_iff_ne, ne_eq]; exact Ne.symm hi⟩
    · intro p hpmem
      exact hne p (List.mem_cons_of_mem e hpmem)

theorem mem_runEvents_of_spawn (b : Bubble) :
    ∀ (es : List (ℚ × Ev)) (bs : List Bubble),
      (∃ p ∈ es, p.2 = Ev.spawn b) → (∀ p ∈ es, p.2 ≠ Ev.expire b.id) →
      b ∈ runEvents bs es := by
  intro es
  induction es with
  | nil =>
    intro bs hex _
    obtain ⟨p, hp, -⟩ := hex
    exact absurd hp (List.not_mem_nil p)
  | cons e rest ih =>
    intro bs hex hne
    obtain ⟨p, hp, hsp⟩ := hex
    unfold runEvents
    rw [List.foldl_cons]
    rcases List.mem_cons.mp hp with he | hp'
    · apply mem_runEvents_of_no_expire b rest
      · rw [← he, hsp]
        simp [stepEv]
      · intro q hq
        exact hne q (List.mem_cons_of_mem e hq)
    · exact ih (stepEv bs e.2) ⟨p, hp', hsp⟩
        (fun q hq => hne q (List.mem_cons_of_mem e hq))

theorem not_mem_runEvents (b : Bubble) :
    ∀ (es : List (ℚ × Ev)) (bs : List Bubble), b ∉ bs →
      (∀ p ∈ es, ∀ b', p.2 = Ev.spawn b' → b'.id ≠ b.id) →
      b ∉ runEvents bs es := by
  intro es
  induction es with
  | nil => intro bs hb _; exact hb
  | cons e rest ih =>
    intro bs hb hno
    unfold runEvents
    rw [List.foldl_cons]
    apply ih
    · cases he : e.2 with
      | spawn b' =>
        simp only [stepEv]
        intro hmem
        rcases List.mem_append.mp hmem with h | h
        · exact hb h
        · simp only [List.mem_singleton] at h
          exact hno e (List.mem_cons_self e rest) b' he (by rw [← h])
      | expire i =>
        simp only [stepEv, removeBubble]
        intro hmem
        exact hb (List.mem_of_mem_filter hmem)
    · intro p hpmem b' hsp
      exact hno p (List.mem_cons_of_mem e hpmem) b' hsp

theorem not_mem_removeBubble (bs : List Bubble) (b : Bubble) :
    b ∉ removeBubble bs b.id := by
  intro h
  rw [removeBubble, List.mem_filter] at h
  exact absurd h.2 (by simp)

theorem mem_removeBubble_iff (bs : List Bubble) (i : String) (x : Bubble) :
    x ∈ removeBubble bs i ↔ x ∈ bs ∧ x.id ≠ i := by
  simp [removeBubble, List.mem_filter, bne_iff_ne]

theorem removeBubble_eq_of_fresh (bs : List Bubble) (i : String)
    (h : ∀ x ∈ bs, x.id ≠ i) : removeBubble bs i = bs := by
  rw [removeBubble]
  apply List.filter_eq_self.mpr
  intro x hx
  simp only [bne_iff_ne, ne_eq, decide_not]
  simpa using h x hx

/-- Claim C5 amended: provided the live ids are pairwise distinct (the
uniqueness invariant of claim C4 — with colliding random ids an expiry
filter removes every live message bearing that id, so a message can
leave the live set before its own TTL, see the counterexample), every
spawned Message is live at createdAt + TTL - ε and no longer live at
createdAt + TTL + ε; and removal is idempotent-safe and precise: on a
list holding no bubble with the given id it is a no-op (never an
error), and in general it removes exactly the bubbles bearing that id
and nothing else. -/
theorem C5_ttl_lifecycle (ttl : ℚ) (spawns : List (ℚ × Bubble)) (s : ℚ)
    (b : Bubble) (ε : ℚ) (httl : 0 < ttl)
    (hnodup : (spawns.map fun p => p.2.id).Nodup)
    (hmem : (s, b) ∈ spawns) (hε : 0 < ε) (hεttl : ε ≤ ttl) :
    b ∈ liveAt ttl spawns (s + ttl - ε) ∧
    b ∉ liveAt ttl spawns (s + ttl + ε) ∧
    (∀ (bs : List Bubble) (i : String),
      (∀ x ∈ bs, x.id ≠ i) → removeBubble bs i = bs) ∧
    (∀ (bs : List Bubble) (i : String) (x : Bubble),
      x ∈ removeBubble bs i ↔ x ∈ bs ∧ x.id ≠ i) := by
  have hinj := List.inj_on_of_nodup_map hnodup
  refine ⟨?_, ?_, fun bs i h => removeBubble_eq_of_fresh bs i h,
    fun bs i x => mem_removeBubble_iff bs i x⟩
  · unfold liveAt
    apply mem_runEvents_of_spawn
    · refine ⟨(s, Ev.spawn b), ?_, rfl⟩
      rw [List.mem_filter]
      constructor
      · apply (List.mem_insertionSort evLE).mpr
        exact List.mem_append_left _ (List.mem_map.mpr ⟨(s, b), hmem, rfl⟩)
      · simp only [decide_eq_true_iff]
        linarith
    · intro p hp hpe
      have hple : p.1 ≤ s + ttl - ε := by
        have := (List.mem_filter.mp hp).2
        simpa using this
      have hpev : p ∈ eventsOf ttl spawns :=
        (List.mem_insertionSort evLE).mp (List.mem_of_mem_filter hp)
      rcases List.mem_append.mp hpev with hm | hm
      · obtain ⟨q, -, hpq⟩ := List.mem_map.mp hm
        rw [← hpq] at hpe
        exact absurd hpe (by simp)
      · obtain ⟨q, hq, hpq⟩ := List.mem_map.mp hm
        rw [← hpq] at hpe hple
        have hid : q.2.id = b.id := Ev.expire.inj hpe
        have hqs : q = (s, b) := hinj hq hmem hid
        rw [hqs] at hple
        simp only at hple
        linarith
  · unfold liveAt
    have hexp : ((s + ttl, Ev.expire b.id) : ℚ × Ev) ∈
        (schedule ttl spawns).filter (fun e => decide (e.1 ≤ s + ttl + ε)) := by
      rw [List.mem_filter]
      constructor
      · apply (List.mem_insertionSort evLE).mpr
        exact List.mem_append_right _ (List.mem_map.mpr ⟨(s, b), hmem, rfl⟩)
      · simp only [decide_eq_true_iff]
        linarith
    have hsorted : ((schedule ttl spawns).filter
        (fun e => decide (e.1 ≤ s + ttl + ε))).Pairwise evLE :=
      List.Pairwise.sublist (List.filter_sublist _)
        (List.sorted_insertionSort evLE (eventsOf ttl spawns))
    obtain ⟨l1, l2, hsplit⟩ := List.append_of_mem hexp
    rw [hsplit]
    have hrun : runEvents [] (l1 ++ (s + ttl, Ev.expire b.id) :: l2) =
        runEvents (removeBubble (runEvents [] l1) b.id) l2 := by
      unfold runEvents
      rw [List.foldl_append, List.foldl_cons]
      rfl
    rw [hrun]
    apply not_mem_runEvents
    · exact not_mem_removeBubble _ b
    · intro p hpl2 b' hsp hid
      have hpes : p ∈ (schedule ttl spawns).filter
          (fun e => decide (e.1 ≤ s + ttl + ε)) := by
        rw [hsplit]
        exact List.mem_append_right _ (List.mem_cons_of_mem _ hpl2)
      have hpev : p ∈ eventsOf ttl spawns :=
        (List.mem_insertionSort evLE).mp (List.mem_of_mem_filter hpes)
      rcases List.mem_append.mp hpev with hm | hm
      · obtain ⟨q, hq, hpq⟩ := List.mem_map.mp hm
        rw [← hpq] at hsp
        have hqb' : q.2 = b' := Ev.spawn.inj hsp
        have hqs : q = (s, b) := hinj hq hmem (by rw [hqb', hid])
        have hord : evLE (s + ttl, Ev.expire b.id) p := by
          rw [hsplit] at hsorted
          have hpw := (List.pairwise_append.mp hsorted).2.1
          exact (List.pairwise_cons.mp hpw).1 p hpl2
        have hp1 : p.1 = s := by rw [← hpq, hqs]
        unfold evLE at hord
        rw [hp1] at hord
        simp only at hord
        linarith
      · obtain ⟨q, -, hpq⟩ := List.mem_map.mp hm
        rw [← hpq] at hsp
        exact absurd hsp (by simp)

/-- Witness for the amended C5: a single spawned bubble is live 1ms
before its 9000ms lifetime elapses and gone 1ms after, and the removal
semantics conjuncts at concrete inputs. -/
theorem C5_witness :
    bW ∈ liveAt 9000 [(0, bW)] (0 + 9000 - 1) ∧
    bW ∉ liveAt 9000 [(0, bW)] (0 + 9000 + 1) ∧
    (∀ (bs : List Bubble) (i : String),
      (∀ x ∈ bs, x.id ≠ i) → removeBubble bs i = bs) ∧
    (∀ (bs : List Bubble) (i : String) (x : Bubble),
      x ∈ removeBubble bs i ↔ x ∈ bs ∧ x.id ≠ i) :=
  C5_ttl_lifecycle 9000 [(0, bW)] 0 bW 1 (by norm_num) (by decide)
    (by decide) (by norm_num) (by norm_num)

/-- Claim C5 counterexample: with two spawned messages whose random ids
collide (`bA` at time 0, `bB` at time 500, both id "dup", TTL 9000),
the expiry of `bA` at time 9000 filters out every live bubble with id
"dup", including `bB`: at time 9100 = 500 + 9000 - 400 (that is, at
createdAt + TTL - ε for ε = 400, where the claim asserts presence) `bB`
is already gone — it was not removed "exactly once, after exactly its
TTL", and `bA`'s removal removed something else. -/
theorem C5_counterexample :
    (500, bB) ∈ [((0 : ℚ), bA), (500, bB)] ∧
    (0 : ℚ) < 400 ∧ (400 : ℚ) ≤ 9000 ∧ (9100 : ℚ) = 500 + 9000 - 400 ∧
    bB ∉ liveAt 9000 [(0, bA), (500, bB)] 9100 := by
  refine ⟨by decide, by norm_num, by norm_num, by norm_num, ?_⟩
  have e1 : (0 : ℚ) + 9000 = 9000 := by norm_num
  have e2 : (500 : ℚ) + 9000 = 9500 := by norm_num
  have hev : eventsOf 9000 [(0, bA), (500, bB)] =
      [(0, Ev.spawn bA), (500, Ev.spawn bB),
       (9000, Ev.expire "dup"), (9500, Ev.expire "dup")] := by
    simp only [eventsOf, List.map_cons, List.map_nil, List.cons_append,
      List.nil_append]
    rw [e1, e2]
    rfl
  have hsched : schedule 9000 [(0, bA), (500, bB)] =
      [(0, Ev.spawn bA), (500, Ev.spawn bB),
       (9000, Ev.expire "dup"), (9500, Ev.expire "dup")] := by
    rw [schedule, hev]
    decide
  unfold liveAt
  rw [hsched]
  decide

end Kinetic
